import Mathlib

/-!
Shallow embedding of `src/main.rs`, a small tile-map rendering prototype built
on an immediate-mode renderer (macroquad) and a tile-map parser (tiled), with
proofs about its behaviour.

Modelling conventions:
* Rust `u32` arithmetic is modelled over `Nat` with checked semantics: an
  operation whose result would leave `[0, 2^32)`, or a division/remainder by
  zero, is a panic, modelled as `none`.
* Rust `f32` quantities exercised by the properties below (positions, the
  viewport arithmetic) are modelled over `ℚ`; the properties only touch values
  at which `f32` arithmetic is exact.
* Fallible code (`?`, `unwrap`) is modelled with `Except` / `Option`; a `none`
  or `Except.error` outcome corresponds to a panic or early error return.
* Code living in external crates (macroquad's `AnimatedSprite::update`, the
  tiled parser) and the compiled-in data files are not part of `src/`; where a
  property depends on them they are modelled from the specification and marked
  `Modelled from the spec:` in their doc comment.
-/

namespace LlmPlayground

def u32Limit : Nat := 2 ^ 32

/-- Checked `u32` addition: panics (`none`) on overflow. -/
def checkedAdd (a b : Nat) : Option Nat :=
  if a + b < u32Limit then some (a + b) else none

/-- Checked `u32` subtraction: panics (`none`) on underflow. -/
def checkedSub (a b : Nat) : Option Nat :=
  if b ≤ a then some (a - b) else none

/-- Checked `u32` multiplication: panics (`none`) on overflow. -/
def checkedMul (a b : Nat) : Option Nat :=
  if a * b < u32Limit then some (a * b) else none

/-- Checked `u32` division: panics (`none`) on a zero divisor. -/
def checkedDiv (a b : Nat) : Option Nat :=
  if b = 0 then none else some (a / b)

/-- Checked `u32` remainder: panics (`none`) on a zero divisor. -/
def checkedMod (a b : Nat) : Option Nat :=
  if b = 0 then none else some (a % b)

/-- The fields of `tiled::Tileset` read by `draw_background`
(main.rs:40-43): `tile_width`, `tile_height`, `spacing`, `margin`. -/
structure Tileset where
  tileWidth : Nat
  tileHeight : Nat
  spacing : Nat
  margin : Nat
deriving DecidableEq

/-- A source rectangle inside the tileset texture, as passed to
`draw_texture_ex` via `Rect::new` (main.rs:57-62). -/
structure SourceRect where
  x : Nat
  y : Nat
  w : Nat
  h : Nat
deriving DecidableEq

/-- Models `tiles_per_row = (texture.size().x as u32 - margin + spacing) /
(tile_width + spacing)` from `draw_background` (main.rs:44-45). -/
def tilesPerRow (textureWidth : Nat) (ts : Tileset) : Option Nat := do
  let a ← checkedSub textureWidth ts.margin
  let num ← checkedAdd a ts.spacing
  let den ← checkedAdd ts.tileWidth ts.spacing
  checkedDiv num den

/-- Models the source-rectangle computation of `draw_background`
(main.rs:44-62): `tileset_texture_x = tile_id % tiles_per_row * tile_width`,
`tileset_texture_y = tile_id / tiles_per_row * tile_height`, and the rectangle
`Rect::new(tileset_texture_x, tileset_texture_y, tile_width, tile_height)`. -/
def resolveSourceRect (tileId textureWidth : Nat) (ts : Tileset) : Option SourceRect := do
  let tpr ← tilesPerRow textureWidth ts
  let col ← checkedMod tileId tpr
  let row ← checkedDiv tileId tpr
  let x ← checkedMul col ts.tileWidth
  let y ← checkedMul row ts.tileHeight
  pure ⟨x, y, ts.tileWidth, ts.tileHeight⟩

/-- A populated tile-layer cell as observed by `draw_background`:
`tile.id()`, `tile.flip_h`, `tile.flip_v` (main.rs:39,55-56). -/
structure TileCell where
  id : Nat
  flipH : Bool
  flipV : Bool
deriving DecidableEq

/-- A tile layer as queried by `draw_background`: `layer.width()` and
`layer.height()` are `Option`s (`None` for layers without explicit
dimensions, e.g. infinite maps), and `get_tile` returns `None` on empty
cells (main.rs:36-38). -/
structure TileLayer where
  width : Option Nat
  height : Option Nat
  getTile : Nat → Nat → Option TileCell

/-- A map layer; `as_tile_layer` is `None` when the layer is not a tile
layer, in which case `draw_background` panics on `unwrap` (main.rs:35). -/
structure MapLayer where
  asTileLayer : Option TileLayer

/-- One `draw_texture_ex` invocation issued by `draw_background`
(main.rs:49-65): pixel position `(x * tile_width, y * tile_height)`
(u32 products, subsequently cast to `f32`), the cell's flip flags, and the
resolved source rectangle. -/
structure DrawCall where
  posX : Nat
  posY : Nat
  flipX : Bool
  flipY : Bool
  source : SourceRect
deriving DecidableEq

/-- The body of the inner loop of `draw_background` for one grid cell
(main.rs:38-66): an empty cell issues no draw call; a populated cell
resolves its source rectangle and issues exactly one draw call at
`(x * tile_width, y * tile_height)` with the cell's flip flags. -/
def drawCellAt (textureWidth : Nat) (ts : Tileset) (layer : TileLayer)
    (x y : Nat) : Option (List DrawCall) :=
  match layer.getTile x y with
  | none => some []
  | some tile => do
    let src ← resolveSourceRect tile.id textureWidth ts
    let px ← checkedMul x ts.tileWidth
    let py ← checkedMul y ts.tileHeight
    pure [⟨px, py, tile.flipH, tile.flipV, src⟩]

/-- The inner `for y in 0..layer.height()` loop (main.rs:37), run over an
explicit list of `y` indices, collecting draw calls in order. -/
def drawInner (textureWidth : Nat) (ts : Tileset) (layer : TileLayer)
    (x : Nat) : List Nat → Option (List DrawCall)
  | [] => some []
  | y :: ys => do
    let d ← drawCellAt textureWidth ts layer x y
    let rest ← drawInner textureWidth ts layer x ys
    pure (d ++ rest)

/-- The outer `for x in 0..layer.width()` loop (main.rs:36), run over an
explicit list of `x` indices; each iteration runs the full inner loop. -/
def drawOuter (textureWidth : Nat) (ts : Tileset) (layer : TileLayer)
    (h : Nat) : List Nat → Option (List DrawCall)
  | [] => some []
  | x :: xs => do
    let col ← drawInner textureWidth ts layer x (List.range h)
    let rest ← drawOuter textureWidth ts layer h xs
    pure (col ++ rest)

/-- Drawing one tile layer (main.rs:36-68): `layer.width().unwrap()` and
`layer.height().unwrap()` panic when the dimensions are absent, then the
nested loops run. -/
def drawTileLayer (textureWidth : Nat) (ts : Tileset) (layer : TileLayer) :
    Option (List DrawCall) := do
  let w ← layer.width
  let h ← layer.height
  drawOuter textureWidth ts layer h (List.range w)

/-- Drawing one map layer (main.rs:34-35): `layer.as_tile_layer().unwrap()`
panics when the layer is not a tile layer. -/
def drawMapLayer (textureWidth : Nat) (ts : Tileset) (l : MapLayer) :
    Option (List DrawCall) := do
  let tl ← l.asTileLayer
  drawTileLayer textureWidth ts tl

/-- `draw_background` (main.rs:33-70): all layers of the map are drawn in
declaration order against the same tileset and texture. -/
def drawBackground (textureWidth : Nat) (ts : Tileset) :
    List MapLayer → Option (List DrawCall)
  | [] => some []
  | l :: ls => do
    let calls ← drawMapLayer textureWidth ts l
    let rest ← drawBackground textureWidth ts ls
    pure (calls ++ rest)

/-- The destination rectangle of the final blit, as computed in the render
loop (main.rs:250-261): offset and size of the scaled scene inside the
window. -/
structure Viewport where
  offsetX : ℚ
  offsetY : ℚ
  destW : ℚ
  destH : ℚ
deriving DecidableEq

/-- Models `zoom = f32::min(screen_width() / map_width, screen_height() /
map_height)` (main.rs:250). -/
def viewportZoom (screenW screenH mapW mapH : ℚ) : ℚ :=
  min (screenW / mapW) (screenH / mapH)

/-- Models the final `draw_texture_ex` of the render loop (main.rs:251-261):
position `((screen_width - map_width * zoom) * 0.5, (screen_height -
map_height * zoom) * 0.5)` and destination size `(map_width * zoom,
map_height * zoom)`. -/
def compositeViewport (screenW screenH mapW mapH : ℚ) : Viewport :=
  let zoom := viewportZoom screenW screenH mapW mapH
  { offsetX := (screenW - mapW * zoom) * (1 / 2)
    offsetY := (screenH - mapH * zoom) * (1 / 2)
    destW := mapW * zoom
    destH := mapH * zoom }

/-- The two byte blobs compiled into the binary by `include_bytes!`
(main.rs:21,23); their contents are data files of the repository, opaque
here. -/
inductive ByteContent where
  | worldTmxBytes
  | backgroundTilesTsxBytes
deriving DecidableEq

/-- The error kinds `TiledReader::read_from` can produce; the source uses
`std::io::ErrorKind::NotFound` (main.rs:26). -/
inductive IoErrorKind where
  | notFound
deriving DecidableEq

/-- `TiledReader::read_from` (main.rs:16-30): exactly the two paths
`data/world.tmx` and `data/background_tiles.tsx` resolve to their
compiled-in bytes; every other path yields a `NotFound` error. -/
def readFrom (path : String) : Except IoErrorKind ByteContent :=
  if path = "data/world.tmx" then .ok .worldTmxBytes
  else if path = "data/background_tiles.tsx" then .ok .backgroundTilesTsxBytes
  else .error .notFound

/-- An animation clip as passed to `AnimatedSprite::new` in `Character::new`
(main.rs:94-98): name, sheet row, frame count, frames per second. -/
structure Animation where
  name : String
  row : Nat
  frames : Nat
  fps : ℚ
deriving DecidableEq

/-- Modelled from the spec: the animation-clock state (spec §4.2 and §3
AnimationState) behind macroquad's `AnimatedSprite`, whose implementation
lives in the external macroquad crate, not in `src/`. The construction data
(cell size, clip list, playing flag) is what `Character::new`
(main.rs:90-120) passes to `AnimatedSprite::new`. -/
structure AnimatedSprite where
  tileWidth : Nat
  tileHeight : Nat
  animations : List Animation
  playing : Bool
  currentAnimation : Nat
  time : ℚ
  frame : Nat
deriving DecidableEq

/-- `AnimatedSprite::new` starts at the first clip, frame 0, accumulated
time 0. -/
def mkAnimatedSprite (tw th : Nat) (anims : List Animation) (playing : Bool) :
    AnimatedSprite :=
  ⟨tw, th, anims, playing, 0, 0, 0⟩

/-- Modelled from the spec: one clock tick (spec §4.2): accumulated time
advances by `dt`; when it crosses `1 / fps` seconds it resets to zero (not
carried as a remainder) and the frame index increments modulo `frame_count`.
The code for this (`AnimatedSprite::update`) lives in the external macroquad
crate, not in `src/`. -/
def spriteUpdate (dt : ℚ) (s : AnimatedSprite) : AnimatedSprite :=
  match s.animations[s.currentAnimation]? with
  | none => s
  | some a =>
    if 1 / a.fps ≤ s.time + dt then
      { s with time := 0, frame := (s.frame + 1) % a.frames }
    else
      { s with time := s.time + dt }

/-- Iterated clock ticks of equal length `dt`. -/
def spriteTicks (dt : ℚ) (s : AnimatedSprite) : Nat → AnimatedSprite
  | 0 => s
  | k + 1 => spriteUpdate dt (spriteTicks dt s k)

/-- The idle clip list of `Character::new` (main.rs:90-120): four directional
clips of 4 frames at 5 fps. -/
def idleAnimations : List Animation :=
  [⟨"idle_down", 0, 4, 5⟩, ⟨"idle_left", 1, 4, 5⟩,
   ⟨"idle_up", 2, 4, 5⟩, ⟨"idle_right", 3, 4, 5⟩]

/-- The walk clip list of `Character::new` (main.rs:123-153): four directional
clips of 4 frames at 5 fps. -/
def walkAnimations : List Animation :=
  [⟨"walk_down", 0, 4, 5⟩, ⟨"walk_left", 1, 4, 5⟩,
   ⟨"walk_up", 2, 4, 5⟩, ⟨"walk_right", 3, 4, 5⟩]

/-- A texture handle; only its identity (the path it was loaded from) and its
pixel width (read by `draw_background` via `texture.size().x`) matter here.
Decoding and upload happen in the external renderer. -/
structure Texture where
  path : String
  width : Nat
deriving DecidableEq

/-- The `Character` struct (main.rs:72-80). -/
structure Character where
  name : String
  job : String
  position : ℚ × ℚ
  idleSprite : AnimatedSprite
  idleTexture : Texture
  walkSprite : AnimatedSprite
  walkTexture : Texture
deriving DecidableEq

/-- Load errors for the external loaders (`load_tmx_map`, `load_tsx_tileset`,
`load_texture`): file missing or decode failure (spec §7). -/
inductive LoadError where
  | fileNotFound
  | decodeError
deriving DecidableEq

/-- `Character::new` (main.rs:83-165): build the idle sprite, load the idle
texture (`?`), build the walk sprite, load the walk texture (`?`), and
assemble the character. -/
def characterNew (loadTexture : String → Except LoadError Texture)
    (name job : String) (position : ℚ × ℚ)
    (idleAnimation walkAnimation : String) : Except LoadError Character := do
  let idleSprite := mkAnimatedSprite 16 16 idleAnimations true
  let idleTexture ← loadTexture idleAnimation
  let walkSprite := mkAnimatedSprite 16 16 walkAnimations true
  let walkTexture ← loadTexture walkAnimation
  pure ⟨name, job, position, idleSprite, idleTexture, walkSprite, walkTexture⟩

/-- The draw call issued by `Character::draw` (main.rs:168-178): the idle
texture drawn at the character's stored position. -/
structure CharDrawCall where
  texture : Texture
  posX : ℚ
  posY : ℚ
deriving DecidableEq

/-- `Character::draw` (main.rs:167-181): issue one draw call at the stored
position with the idle texture, then advance the idle sprite's animation
clock by the frame tick `dt` (`self.idle_sprite.update()`). -/
def characterDraw (dt : ℚ) (c : Character) : CharDrawCall × Character :=
  (⟨c.idleTexture, c.position.1, c.position.2⟩,
   { c with idleSprite := spriteUpdate dt c.idleSprite })

/-- The character pass of one render-loop iteration (main.rs:240-242). -/
def charactersStep (dt : ℚ) (cs : List Character) : List Character :=
  cs.map (fun c => (characterDraw dt c).2)

/-- The character pass iterated over a list of frame ticks. -/
def charactersLoop (cs : List Character) : List ℚ → List Character
  | [] => cs
  | dt :: rest => charactersLoop (charactersStep dt cs) rest

/-- The fields of `tiled::Map` read by `main` (main.rs:198-199) and
`draw_background` (main.rs:34). -/
structure TiledMap where
  width : Nat
  height : Nat
  tileWidth : Nat
  tileHeight : Nat
  layers : List MapLayer

/-- The state owned by the render loop after a successful startup. -/
structure GameState where
  worldMap : TiledMap
  backgroundTileset : Tileset
  backgroundTexture : Texture
  mapWidth : ℚ
  mapHeight : ℚ
  characters : List Character

/-- The startup phase of `main` (main.rs:186-232): load the map (`?`), the
tileset (`unwrap`), the background texture (`unwrap`), size the offscreen
scene buffer from the map, then construct the three roster characters (each
loading two textures). Any failure aborts before the render loop. -/
def startup (mapR : Except LoadError TiledMap) (tilesetR : Except LoadError Tileset)
    (loadTexture : String → Except LoadError Texture) : Except LoadError GameState := do
  let worldMap ← mapR
  let backgroundTileset ← tilesetR
  let backgroundTexture ← loadTexture "data/MasterSimple.png"
  let c1 ← characterNew loadTexture "Kas" "Shopkeeper" (100, 100)
    "data/char1_idle.png" "data/char1_walk.png"
  let c2 ← characterNew loadTexture "Jeid" "Barkeeper" (200, 200)
    "data/char2_idle.png" "data/char2_walk.png"
  let c3 ← characterNew loadTexture "Bres" "Peasant" (400, 230)
    "data/char3_idle.png" "data/char3_walk.png"
  pure { worldMap := worldMap
         backgroundTileset := backgroundTileset
         backgroundTexture := backgroundTexture
         mapWidth := ((worldMap.width * worldMap.tileWidth : Nat) : ℚ)
         mapHeight := ((worldMap.height * worldMap.tileHeight : Nat) : ℚ)
         characters := [c1, c2, c3] }

/-- Per-frame external inputs: the frame tick used by sprite updates and the
window size read by the compositor (main.rs:250). -/
structure FrameInput where
  dt : ℚ
  screenW : ℚ
  screenH : ℚ

/-- One frame's observable output: background draw calls, character draw
calls, and the final blit's viewport. -/
structure Frame where
  background : List DrawCall
  charCalls : List CharDrawCall
  viewport : Viewport
deriving DecidableEq

/-- One iteration of the render loop (main.rs:234-263): draw the background
(which can panic, e.g. at `layer.width().unwrap()`), draw each character
(mutating only its animation state), then composite the offscreen scene into
the window. -/
def frameStep (s : GameState) (input : FrameInput) : Option (Frame × GameState) := do
  let bg ← drawBackground s.backgroundTexture.width s.backgroundTileset s.worldMap.layers
  let drawn := s.characters.map (characterDraw input.dt)
  let vp := compositeViewport input.screenW input.screenH s.mapWidth s.mapHeight
  pure (⟨bg, drawn.map Prod.fst, vp⟩, { s with characters := drawn.map Prod.snd })

/-- The render loop over a finite list of frame inputs; `none` when a frame
panics. -/
def renderLoop (s : GameState) : List FrameInput → Option (List Frame)
  | [] => some []
  | input :: rest => do
    let fs ← frameStep s input
    let more ← renderLoop fs.2 rest
    pure (fs.1 :: more)

/-- The whole program on given load results and frame inputs: startup, then
the render loop. An `Except.error` outcome is a startup failure before any
frame is rendered; an `.ok none` outcome is a panic inside the render loop. -/
def runProgram (mapR : Except LoadError TiledMap) (tilesetR : Except LoadError Tileset)
    (loadTexture : String → Except LoadError Texture) (inputs : List FrameInput) :
    Except LoadError (Option (List Frame)) :=
  (startup mapR tilesetR loadTexture).map (fun s => renderLoop s inputs)

/-- Column-major enumeration of a `w × h` grid: all cells of column `x`, in
row order, before any cell of column `x + 1`. This is the order of the
nested loops of `draw_background` (main.rs:36-37): `x` outer, `y` inner. -/
def colMajorCoords (w h : Nat) : List (Nat × Nat) :=
  (List.range w).flatMap (fun x => (List.range h).map (fun y => (x, y)))

/-- Row-major enumeration of a `w × h` grid: all cells of row `y`, in column
order, before any cell of row `y + 1`. This is the order the spec claims for
the background renderer. -/
def rowMajorCoords (w h : Nat) : List (Nat × Nat) :=
  (List.range h).flatMap (fun y => (List.range w).map (fun x => (x, y)))

/-- Running the per-cell body of `draw_background` over an explicit list of
grid coordinates, collecting draw calls in order. -/
def drawCoords (textureWidth : Nat) (ts : Tileset) (layer : TileLayer) :
    List (Nat × Nat) → Option (List DrawCall)
  | [] => some []
  | p :: ps => do
    let d ← drawCellAt textureWidth ts layer p.1 p.2
    let rest ← drawCoords textureWidth ts layer ps
    pure (d ++ rest)

/-- The SpriteSheetIndex column count exactly as the spec words it (spec
§4.1): `tiles_per_row = floor((texture_width - margin + spacing) /
(tile_width + spacing))`, over `Nat` where `/` is floor division. -/
def specTilesPerRow (textureWidth : Nat) (ts : Tileset) : Nat :=
  (textureWidth - ts.margin + ts.spacing) / (ts.tileWidth + ts.spacing)

/-- The row count obtained from the true texture height by the formula
analogous to `specTilesPerRow` (spec §8). -/
def specRows (textureHeight : Nat) (ts : Tileset) : Nat :=
  (textureHeight - ts.margin + ts.spacing) / (ts.tileHeight + ts.spacing)

/-- The SpriteSheetIndex rectangle exactly as the spec words it (spec §4.1):
`column = tile_id mod tiles_per_row`, `row = tile_id div tiles_per_row`,
rectangle `(column * tile_width, row * tile_height, tile_width,
tile_height)`. -/
def specSourceRect (tileId textureWidth : Nat) (ts : Tileset) : SourceRect :=
  ⟨tileId % specTilesPerRow textureWidth ts * ts.tileWidth,
   tileId / specTilesPerRow textureWidth ts * ts.tileHeight,
   ts.tileWidth, ts.tileHeight⟩

theorem tilesPerRow_eq (textureWidth : Nat) (ts : Tileset)
    (hm : ts.margin ≤ textureWidth)
    (hnum : textureWidth - ts.margin + ts.spacing < u32Limit)
    (hden0 : 0 < ts.tileWidth + ts.spacing)
    (hden : ts.tileWidth + ts.spacing < u32Limit) :
    tilesPerRow textureWidth ts = some (specTilesPerRow textureWidth ts) := by
  have hd : ts.tileWidth + ts.spacing ≠ 0 := Nat.pos_iff_ne_zero.mp hden0
  simp [tilesPerRow, checkedSub, checkedAdd, checkedDiv, hm, hnum, hden, hd,
    specTilesPerRow]

theorem resolveSourceRect_eq (tileId textureWidth : Nat) (ts : Tileset)
    (hm : ts.margin ≤ textureWidth)
    (hnum : textureWidth - ts.margin + ts.spacing < u32Limit)
    (hden0 : 0 < ts.tileWidth + ts.spacing)
    (hden : ts.tileWidth + ts.spacing < u32Limit)
    (htpr : 0 < specTilesPerRow textureWidth ts)
    (hx : tileId % specTilesPerRow textureWidth ts * ts.tileWidth < u32Limit)
    (hy : tileId / specTilesPerRow textureWidth ts * ts.tileHeight < u32Limit) :
    resolveSourceRect tileId textureWidth ts =
      some (specSourceRect tileId textureWidth ts) := by
  have htpr0 : specTilesPerRow textureWidth ts ≠ 0 := Nat.pos_iff_ne_zero.mp htpr
  simp [resolveSourceRect, tilesPerRow_eq textureWidth ts hm hnum hden0 hden,
    checkedMod, checkedDiv, checkedMul, htpr0, hx, hy, specSourceRect]

/-- C1: for every tile drawn by the background renderer, the source rectangle
inside the tileset texture is computed as `tiles_per_row =
floor((texture_width - margin + spacing) / (tile_width + spacing))`,
`column = tile_id mod tiles_per_row`, `row = tile_id div tiles_per_row`,
rectangle `(column * tile_width, row * tile_height, tile_width,
tile_height)`; with `texture_width = 128`, `tile_width = 16`, `margin = 0`,
`spacing = 0` the formula gives `tiles_per_row = 8`, and with
`margin = 1`, `spacing = 1` it gives the adjusted value of the same formula,
namely 7. -/
theorem c1_source_rect_formula (tileId textureWidth : Nat) (ts : Tileset)
    (hm : ts.margin ≤ textureWidth)
    (hnum : textureWidth - ts.margin + ts.spacing < u32Limit)
    (hden : ts.tileWidth + ts.spacing < u32Limit)
    (htpr : 0 < specTilesPerRow textureWidth ts)
    (hx : tileId % specTilesPerRow textureWidth ts * ts.tileWidth < u32Limit)
    (hy : tileId / specTilesPerRow textureWidth ts * ts.tileHeight < u32Limit) :
    resolveSourceRect tileId textureWidth ts =
      some (specSourceRect tileId textureWidth ts)
    ∧ specTilesPerRow 128 ⟨16, 16, 0, 0⟩ = 8
    ∧ tilesPerRow 128 ⟨16, 16, 0, 0⟩ = some 8
    ∧ tilesPerRow 128 ⟨16, 16, 1, 1⟩ = some (specTilesPerRow 128 ⟨16, 16, 1, 1⟩)
    ∧ specTilesPerRow 128 ⟨16, 16, 1, 1⟩ = 7 := by
  have hden0 : 0 < ts.tileWidth + ts.spacing := by
    rcases Nat.eq_zero_or_pos (ts.tileWidth + ts.spacing) with h0 | hpos
    · rw [specTilesPerRow, h0, Nat.div_zero] at htpr
      exact absurd htpr (lt_irrefl 0)
    · exact hpos
  exact ⟨resolveSourceRect_eq tileId textureWidth ts hm hnum hden0 hden htpr hx hy,
    by decide, by decide, by decide, by decide⟩

theorem c1_source_rect_formula_witness :
    resolveSourceRect 19 128 ⟨16, 16, 0, 0⟩ = some ⟨48, 32, 16, 16⟩
    ∧ specTilesPerRow 128 ⟨16, 16, 0, 0⟩ = 8
    ∧ tilesPerRow 128 ⟨16, 16, 0, 0⟩ = some 8
    ∧ tilesPerRow 128 ⟨16, 16, 1, 1⟩ = some (specTilesPerRow 128 ⟨16, 16, 1, 1⟩)
    ∧ specTilesPerRow 128 ⟨16, 16, 1, 1⟩ = 7 :=
  c1_source_rect_formula 19 128 ⟨16, 16, 0, 0⟩ (by decide) (by decide) (by decide)
    (by decide) (by decide) (by decide)

theorem div_mul_le_of_one_le {N s tw : Nat} (h1 : 1 ≤ (N + s) / (tw + s)) :
    (N + s) / (tw + s) * tw ≤ N := by
  have h2 : (N + s) / (tw + s) * tw + s ≤ (N + s) / (tw + s) * tw + (N + s) / (tw + s) * s :=
    Nat.add_le_add_left (Nat.le_mul_of_pos_left s h1) _
  have h3 : (N + s) / (tw + s) * tw + (N + s) / (tw + s) * s ≤ N + s := by
    rw [← Nat.mul_add]
    exact Nat.div_mul_le_self _ _
  exact Nat.le_of_add_le_add_right (le_trans h2 h3)

theorem specTilesPerRow_pos_den {textureWidth : Nat} {ts : Tileset}
    (htpr : 1 ≤ specTilesPerRow textureWidth ts) : 0 < ts.tileWidth + ts.spacing := by
  rcases Nat.eq_zero_or_pos (ts.tileWidth + ts.spacing) with h0 | hpos
  · rw [specTilesPerRow, h0, Nat.div_zero] at htpr
    exact absurd htpr (lt_irrefl 0)
  · exact hpos

/-- Main bounds computation: a tile id inside `[0, tiles_per_row * rows)`
resolves to a rectangle fully inside the `textureWidth × textureHeight`
texture. -/
theorem resolve_bounds (tileId textureWidth textureHeight : Nat) (ts : Tileset)
    (hmW : ts.margin ≤ textureWidth) (hmH : ts.margin ≤ textureHeight)
    (hW : textureWidth < u32Limit) (hH : textureHeight < u32Limit)
    (hnum : textureWidth - ts.margin + ts.spacing < u32Limit)
    (hden : ts.tileWidth + ts.spacing < u32Limit)
    (htpr : 1 ≤ specTilesPerRow textureWidth ts)
    (hid : tileId < specTilesPerRow textureWidth ts * specRows textureHeight ts) :
    resolveSourceRect tileId textureWidth ts =
      some (specSourceRect tileId textureWidth ts)
    ∧ (specSourceRect tileId textureWidth ts).x
        + (specSourceRect tileId textureWidth ts).w ≤ textureWidth
    ∧ (specSourceRect tileId textureWidth ts).y
        + (specSourceRect tileId textureWidth ts).h ≤ textureHeight := by
  have hden0 : 0 < ts.tileWidth + ts.spacing := specTilesPerRow_pos_den htpr
  have hrowsPos : 0 < specRows textureHeight ts := by
    rcases Nat.eq_zero_or_pos (specRows textureHeight ts) with h0 | hpos
    · rw [h0, Nat.mul_zero] at hid
      exact absurd hid (Nat.not_lt_zero _)
    · exact hpos
  have hcol : tileId % specTilesPerRow textureWidth ts < specTilesPerRow textureWidth ts :=
    Nat.mod_lt _ htpr
  have hrow : tileId / specTilesPerRow textureWidth ts < specRows textureHeight ts :=
    (Nat.div_lt_iff_lt_mul htpr).mpr (by rw [Nat.mul_comm]; exact hid)
  have hxbound : tileId % specTilesPerRow textureWidth ts * ts.tileWidth + ts.tileWidth
      ≤ textureWidth := by
    have step1 : (tileId % specTilesPerRow textureWidth ts + 1) * ts.tileWidth
        ≤ specTilesPerRow textureWidth ts * ts.tileWidth :=
      Nat.mul_le_mul_right _ hcol
    have step2 : specTilesPerRow textureWidth ts * ts.tileWidth
        ≤ textureWidth - ts.margin := div_mul_le_of_one_le htpr
    calc tileId % specTilesPerRow textureWidth ts * ts.tileWidth + ts.tileWidth
        = (tileId % specTilesPerRow textureWidth ts + 1) * ts.tileWidth := by
          rw [Nat.succ_mul]
      _ ≤ specTilesPerRow textureWidth ts * ts.tileWidth := step1
      _ ≤ textureWidth - ts.margin := step2
      _ ≤ textureWidth := Nat.sub_le _ _
  have hybound : tileId / specTilesPerRow textureWidth ts * ts.tileHeight + ts.tileHeight
      ≤ textureHeight := by
    have step1 : (tileId / specTilesPerRow textureWidth ts + 1) * ts.tileHeight
        ≤ specRows textureHeight ts * ts.tileHeight :=
      Nat.mul_le_mul_right _ hrow
    have step2 : specRows textureHeight ts * ts.tileHeight ≤ textureHeight - ts.margin :=
      div_mul_le_of_one_le hrowsPos
    calc tileId / specTilesPerRow textureWidth ts * ts.tileHeight + ts.tileHeight
        = (tileId / specTilesPerRow textureWidth ts + 1) * ts.tileHeight := by
          rw [Nat.succ_mul]
      _ ≤ specRows textureHeight ts * ts.tileHeight := step1
      _ ≤ textureHeight - ts.margin := step2
      _ ≤ textureHeight := Nat.sub_le _ _
  have hx : tileId % specTilesPerRow textureWidth ts * ts.tileWidth < u32Limit :=
    lt_of_le_of_lt (le_trans (Nat.le_add_right _ _) hxbound) hW
  have hy : tileId / specTilesPerRow textureWidth ts * ts.tileHeight < u32Limit :=
    lt_of_le_of_lt (le_trans (Nat.le_add_right _ _) hybound) hH
  exact ⟨resolveSourceRect_eq tileId textureWidth ts hmW hnum hden0 hden htpr hx hy,
    hxbound, hybound⟩

/-- C3: for every `tile_id` in `[0, tiles_per_row * rows)`, where `rows` is
computed from the true texture height by the analogous formula, the
source-rectangle resolution returns a rectangle fully inside the texture
bounds (given `tiles_per_row ≥ 1` and non-negative geometry); for a
`tile_id` outside that range the output is invalid and unchecked: for
example `tile_id = 64` on a 128×128 sheet of 16×16 tiles resolves without
any error to a rectangle reaching `y + h = 144`, past the texture's bottom
edge. -/
theorem c3_resolve_in_bounds (tileId textureWidth textureHeight : Nat) (ts : Tileset)
    (hmW : ts.margin ≤ textureWidth) (hmH : ts.margin ≤ textureHeight)
    (hW : textureWidth < u32Limit) (hH : textureHeight < u32Limit)
    (hnum : textureWidth - ts.margin + ts.spacing < u32Limit)
    (hden : ts.tileWidth + ts.spacing < u32Limit)
    (htpr : 1 ≤ specTilesPerRow textureWidth ts)
    (hid : tileId < specTilesPerRow textureWidth ts * specRows textureHeight ts) :
    (∃ r, resolveSourceRect tileId textureWidth ts = some r
      ∧ r.x + r.w ≤ textureWidth ∧ r.y + r.h ≤ textureHeight)
    ∧ resolveSourceRect 64 128 ⟨16, 16, 0, 0⟩ = some ⟨0, 128, 16, 16⟩
    ∧ 64 = specTilesPerRow 128 ⟨16, 16, 0, 0⟩ * specRows 128 ⟨16, 16, 0, 0⟩
    ∧ 128 + 16 > 128 := by
  obtain ⟨heq, hxb, hyb⟩ := resolve_bounds tileId textureWidth textureHeight ts
    hmW hmH hW hH hnum hden htpr hid
  exact ⟨⟨specSourceRect tileId textureWidth ts, heq, hxb, hyb⟩,
    by decide, by decide, by decide⟩

theorem c3_resolve_in_bounds_witness :
    ((∃ r, resolveSourceRect 63 128 ⟨16, 16, 0, 0⟩ = some r
      ∧ r.x + r.w ≤ 128 ∧ r.y + r.h ≤ 128)
    ∧ resolveSourceRect 64 128 ⟨16, 16, 0, 0⟩ = some ⟨0, 128, 16, 16⟩
    ∧ 64 = specTilesPerRow 128 ⟨16, 16, 0, 0⟩ * specRows 128 ⟨16, 16, 0, 0⟩
    ∧ 128 + 16 > 128) :=
  c3_resolve_in_bounds 63 128 128 ⟨16, 16, 0, 0⟩ (by decide) (by decide) (by decide)
    (by decide) (by decide) (by decide) (by decide) (by decide)

theorem spriteTicks_idle (k : Nat) :
    spriteTicks (1 / 5) (mkAnimatedSprite 16 16 idleAnimations true) k =
      ⟨16, 16, idleAnimations, true, 0, 0, k % 4⟩ := by
  induction k with
  | zero => rfl
  | succ k ih =>
    rw [spriteTicks, ih]
    have h : spriteUpdate (1 / 5) (⟨16, 16, idleAnimations, true, 0, 0, k % 4⟩ : AnimatedSprite)
        = ⟨16, 16, idleAnimations, true, 0, 0, (k % 4 + 1) % 4⟩ := by
      show (if (1 : ℚ) / 5 ≤ 0 + 1 / 5 then
          (⟨16, 16, idleAnimations, true, 0, 0, (k % 4 + 1) % 4⟩ : AnimatedSprite)
        else ⟨16, 16, idleAnimations, true, 0, 0 + 1 / 5, k % 4⟩)
          = ⟨16, 16, idleAnimations, true, 0, 0, (k % 4 + 1) % 4⟩
      rw [if_pos (show (1 : ℚ) / 5 ≤ 0 + 1 / 5 by norm_num)]
    rw [h]
    congr 1
    omega

/-- C6: for the animation clock of `Character::new`'s idle sprite (fps = 5,
4-frame clips) starting at frame 0, after advancing by exactly `0.2s * k` of
accumulated ticks the current frame index equals `k mod frame_count` (= `k
mod 4`), with accumulated time back at 0; more generally, whenever
accumulated time crosses `1 / fps` seconds the frame index increments modulo
`frame_count` and the accumulated time resets to 0 (not carried as a
remainder), and below the threshold only the accumulated time advances. -/
theorem c6_animation_clock (k : Nat) :
    (spriteTicks (1 / 5) (mkAnimatedSprite 16 16 idleAnimations true) k).frame = k % 4
    ∧ (spriteTicks (1 / 5) (mkAnimatedSprite 16 16 idleAnimations true) k).time = 0
    ∧ (∀ (s : AnimatedSprite) (a : Animation) (dt : ℚ),
        s.animations[s.currentAnimation]? = some a →
        1 / a.fps ≤ s.time + dt →
        spriteUpdate dt s = { s with time := 0, frame := (s.frame + 1) % a.frames })
    ∧ (∀ (s : AnimatedSprite) (a : Animation) (dt : ℚ),
        s.animations[s.currentAnimation]? = some a →
        s.time + dt < 1 / a.fps →
        spriteUpdate dt s = { s with time := s.time + dt }) := by
  refine ⟨by rw [spriteTicks_idle], by rw [spriteTicks_idle], ?_, ?_⟩
  · intro s a dt ha hcross
    rw [spriteUpdate, ha]
    exact if_pos hcross
  · intro s a dt ha hbelow
    rw [spriteUpdate, ha]
    exact if_neg (not_le.mpr hbelow)

theorem c6_animation_clock_witness :
    (spriteTicks (1 / 5) (mkAnimatedSprite 16 16 idleAnimations true) 7).frame = 7 % 4
    ∧ (spriteTicks (1 / 5) (mkAnimatedSprite 16 16 idleAnimations true) 7).time = 0
    ∧ spriteUpdate (1 / 5) (mkAnimatedSprite 16 16 idleAnimations true)
        = { mkAnimatedSprite 16 16 idleAnimations true with
            time := 0
            frame := ((mkAnimatedSprite 16 16 idleAnimations true).frame + 1) % 4 }
    ∧ spriteUpdate (1 / 10) (mkAnimatedSprite 16 16 idleAnimations true)
        = { mkAnimatedSprite 16 16 idleAnimations true with
            time := (mkAnimatedSprite 16 16 idleAnimations true).time + 1 / 10 } :=
  ⟨(c6_animation_clock 7).1, (c6_animation_clock 7).2.1,
   (c6_animation_clock 7).2.2.1 (mkAnimatedSprite 16 16 idleAnimations true)
     ⟨"idle_down", 0, 4, 5⟩ (1 / 5) rfl (by norm_num [mkAnimatedSprite]),
   (c6_animation_clock 7).2.2.2 (mkAnimatedSprite 16 16 idleAnimations true)
     ⟨"idle_down", 0, 4, 5⟩ (1 / 10) rfl (by norm_num [mkAnimatedSprite])⟩

/-- C2: the viewport compositor scales the offscreen scene with the uniform
factor `zoom = min(window_width / scene_width, window_height /
scene_height)`, a destination rectangle of size `(scene_width * zoom,
scene_height * zoom)` at offset `((window_width - dest_w) / 2,
(window_height - dest_h) / 2)`; an 800×600 scene in a 1600×600 window yields
`zoom = 1`, destination size 800×600, centered with 400-pixel bars on each
side and no vertical bars. -/
theorem c2_viewport_compositor :
    (∀ sw sh mw mh : ℚ, compositeViewport sw sh mw mh =
      { offsetX := (sw - mw * viewportZoom sw sh mw mh) * (1 / 2)
        offsetY := (sh - mh * viewportZoom sw sh mw mh) * (1 / 2)
        destW := mw * viewportZoom sw sh mw mh
        destH := mh * viewportZoom sw sh mw mh })
    ∧ viewportZoom 1600 600 800 600 = 1
    ∧ (compositeViewport 1600 600 800 600).destW = 800
    ∧ (compositeViewport 1600 600 800 600).destH = 600
    ∧ (compositeViewport 1600 600 800 600).offsetX = 400
    ∧ 1600 - ((compositeViewport 1600 600 800 600).offsetX
        + (compositeViewport 1600 600 800 600).destW) = 400
    ∧ (compositeViewport 1600 600 800 600).offsetY = 0
    ∧ 600 - ((compositeViewport 1600 600 800 600).offsetY
        + (compositeViewport 1600 600 800 600).destH) = 0 := by
  refine ⟨fun sw sh mw mh => rfl, ?_, ?_, ?_, ?_, ?_, ?_, ?_⟩ <;>
    norm_num [compositeViewport, viewportZoom]

theorem c2_viewport_compositor_witness :
    viewportZoom 1600 600 800 600 = 1
    ∧ (compositeViewport 1600 600 800 600).offsetX = 400 :=
  ⟨c2_viewport_compositor.2.1, c2_viewport_compositor.2.2.2.2.1⟩

theorem drawCoords_append (textureWidth : Nat) (ts : Tileset) (layer : TileLayer)
    (cs ds : List (Nat × Nat)) :
    drawCoords textureWidth ts layer (cs ++ ds) =
      (do
        let a ← drawCoords textureWidth ts layer cs
        let b ← drawCoords textureWidth ts layer ds
        pure (a ++ b)) := by
  induction cs with
  | nil =>
    cases h : drawCoords textureWidth ts layer ds <;> simp [drawCoords, h]
  | cons p ps ih =>
    cases h : drawCellAt textureWidth ts layer p.1 p.2 with
    | none => simp [drawCoords, h]
    | some d =>
      cases h2 : drawCoords textureWidth ts layer ps with
      | none => simp [drawCoords, h, h2, ih]
      | some rest =>
        cases h3 : drawCoords textureWidth ts layer ds with
        | none => simp [drawCoords, h, h2, h3, ih]
        | some more => simp [drawCoords, h, h2, h3, ih]

theorem drawInner_eq_coords (textureWidth : Nat) (ts : Tileset) (layer : TileLayer)
    (x : Nat) (ys : List Nat) :
    drawInner textureWidth ts layer x ys =
      drawCoords textureWidth ts layer (ys.map (fun y => (x, y))) := by
  induction ys with
  | nil => rfl
  | cons y ys ih => simp [drawInner, drawCoords, ih]

theorem drawOuter_eq_coords (textureWidth : Nat) (ts : Tileset) (layer : TileLayer)
    (h : Nat) (xs : List Nat) :
    drawOuter textureWidth ts layer h xs =
      drawCoords textureWidth ts layer
        (xs.flatMap (fun x => (List.range h).map (fun y => (x, y)))) := by
  induction xs with
  | nil => rfl
  | cons x xs ih =>
    rw [drawOuter, List.flatMap_cons, drawCoords_append, drawInner_eq_coords, ih]

/-- The nested loops of `draw_background` traverse exactly the column-major
coordinate list of the layer's declared grid. -/
theorem drawTileLayer_eq_coords (textureWidth : Nat) (ts : Tileset) (layer : TileLayer)
    (w h : Nat) (hw : layer.width = some w) (hh : layer.height = some h) :
    drawTileLayer textureWidth ts layer =
      drawCoords textureWidth ts layer (colMajorCoords w h) := by
  rw [drawTileLayer, hw, hh]
  show drawOuter textureWidth ts layer h (List.range w) = _
  rw [drawOuter_eq_coords]
  rfl

/-- The draw calls contributed by one grid cell on a successful draw. -/
def cellCalls (textureWidth : Nat) (ts : Tileset) (layer : TileLayer) (p : Nat × Nat) :
    List DrawCall :=
  (drawCellAt textureWidth ts layer p.1 p.2).getD []

theorem drawCoords_flatten (textureWidth : Nat) (ts : Tileset) (layer : TileLayer)
    (cs : List (Nat × Nat)) (L : List DrawCall)
    (h : drawCoords textureWidth ts layer cs = some L) :
    L = cs.flatMap (cellCalls textureWidth ts layer) := by
  induction cs generalizing L with
  | nil =>
    rw [drawCoords] at h
    cases h
    rfl
  | cons p ps ih =>
    rw [drawCoords] at h
    cases hc : drawCellAt textureWidth ts layer p.1 p.2 with
    | none => rw [hc] at h; cases h
    | some d =>
      rw [hc] at h
      cases hr : drawCoords textureWidth ts layer ps with
      | none => rw [hr] at h; cases h
      | some rest =>
        rw [hr] at h
        cases h
        rw [List.flatMap_cons]
        rw [← ih rest hr]
        simp [cellCalls, hc]

theorem drawCoords_cell_some (textureWidth : Nat) (ts : Tileset) (layer : TileLayer)
    (cs : List (Nat × Nat)) (L : List DrawCall)
    (h : drawCoords textureWidth ts layer cs = some L) :
    ∀ p ∈ cs, ∃ d, drawCellAt textureWidth ts layer p.1 p.2 = some d := by
  induction cs generalizing L with
  | nil => intro p hp; cases hp
  | cons q ps ih =>
    rw [drawCoords] at h
    cases hc : drawCellAt textureWidth ts layer q.1 q.2 with
    | none => rw [hc] at h; cases h
    | some d =>
      rw [hc] at h
      cases hr : drawCoords textureWidth ts layer ps with
      | none => rw [hr] at h; cases h
      | some rest =>
        intro p hp
        rcases List.mem_cons.mp hp with rfl | hmem
        · exact ⟨d, hc⟩
        · exact ih rest hr p hmem

theorem filter_flatMap {α β : Type} (l : List α) (f : α → List β) (p : β → Bool) :
    (l.flatMap f).filter p = l.flatMap (fun a => (f a).filter p) := by
  induction l with
  | nil => rfl
  | cons a t ih => simp [List.flatMap_cons, List.filter_append, ih]

theorem flatMap_single {α β : Type} (l : List α) (f : α → List β) (a : α)
    (hnd : l.Nodup) (hmem : a ∈ l) (hother : ∀ b ∈ l, b ≠ a → f b = []) :
    l.flatMap f = f a := by
  induction l with
  | nil => cases hmem
  | cons b t ih =>
    rcases List.mem_cons.mp hmem with rfl | hmem2
    · have hnot : a ∉ t := (List.nodup_cons.mp hnd).1
      have ht : t.flatMap f = [] := List.flatMap_eq_nil_iff.mpr
        (fun x hx => hother x (List.mem_cons_of_mem _ hx)
          (fun hxa => hnot (hxa ▸ hx)))
      simp [List.flatMap_cons, ht]
    · have hf : f b = [] := hother b (List.mem_cons_self _ _)
        (by rintro rfl; exact (List.nodup_cons.mp hnd).1 hmem2)
      rw [List.flatMap_cons, hf, List.nil_append]
      exact ih (List.nodup_cons.mp hnd).2 hmem2
        (fun c hc => hother c (List.mem_cons_of_mem _ hc))

theorem mem_colMajor {w h x y : Nat} : (x, y) ∈ colMajorCoords w h ↔ x < w ∧ y < h := by
  constructor
  · intro hm
    rcases List.mem_flatMap.mp hm with ⟨a, ha, hmap⟩
    rcases List.mem_map.mp hmap with ⟨b, hb, heq⟩
    cases heq
    exact ⟨List.mem_range.mp ha, List.mem_range.mp hb⟩
  · rintro ⟨hx, hy⟩
    exact List.mem_flatMap.mpr ⟨x, List.mem_range.mpr hx,
      List.mem_map.mpr ⟨y, List.mem_range.mpr hy, rfl⟩⟩

theorem colMajor_nodup (w h : Nat) : (colMajorCoords w h).Nodup := by
  rw [colMajorCoords, List.nodup_flatMap]
  refine ⟨fun x _ => ?_, ?_⟩
  · exact List.Nodup.map (fun a b hab => by simpa using congrArg Prod.snd hab)
      (List.nodup_range h)
  · refine (List.pairwise_lt_range w).imp ?_
    intro a b hab p hp1 hp2
    rcases List.mem_map.mp hp1 with ⟨y1, _, e1⟩
    rcases List.mem_map.mp hp2 with ⟨y2, _, e2⟩
    rw [← e1] at e2
    have : b = a := congrArg Prod.fst e2
    omega

theorem drawCellAt_empty (textureWidth : Nat) (ts : Tileset) (layer : TileLayer)
    (x y : Nat) (h : layer.getTile x y = none) :
    drawCellAt textureWidth ts layer x y = some [] := by
  rw [drawCellAt, h]

theorem drawCellAt_some_elim (textureWidth : Nat) (ts : Tileset) (layer : TileLayer)
    (x y : Nat) (tile : TileCell) (d : List DrawCall)
    (ht : layer.getTile x y = some tile)
    (h : drawCellAt textureWidth ts layer x y = some d) :
    ∃ src, resolveSourceRect tile.id textureWidth ts = some src
      ∧ x * ts.tileWidth < u32Limit ∧ y * ts.tileHeight < u32Limit
      ∧ d = [⟨x * ts.tileWidth, y * ts.tileHeight, tile.flipH, tile.flipV, src⟩] := by
  simp only [drawCellAt, ht] at h
  cases hr : resolveSourceRect tile.id textureWidth ts with
  | none => simp [hr] at h
  | some src =>
    simp only [hr] at h
    by_cases hmx : x * ts.tileWidth < u32Limit
    · by_cases hmy : y * ts.tileHeight < u32Limit
      · refine ⟨src, rfl, hmx, hmy, ?_⟩
        simp [checkedMul, hmx, hmy] at h
        exact h.symm
      · simp [checkedMul, hmx, hmy] at h
    · simp [checkedMul, hmx] at h

/-- A concrete 2×2 layer whose four cells carry distinct tile ids
(`id = x * 2 + y`), drawn with 1×1 tiles from a 4-pixel-wide sheet, used to
exhibit the traversal order of `draw_background`. -/
def cexLayer : TileLayer := ⟨some 2, some 2, fun x y => some ⟨x * 2 + y, false, false⟩⟩

/-- The 1×1-tile geometry used with `cexLayer`. -/
def cexTileset : Tileset := ⟨1, 1, 0, 0⟩

/-- C4 counterexample: the background renderer does not visit the grid in
row-major order. On the concrete 2×2 layer `cexLayer` the emitted draw-call
list is the column-major one — positions `(0,0), (0,1), (1,0), (1,1)` with
source columns `0, 1, 2, 3` — and differs from the draw-call list produced
by a row-major traversal of the same grid. -/
theorem c4_row_major_counterexample :
    drawTileLayer 4 cexTileset cexLayer ≠
      drawCoords 4 cexTileset cexLayer (rowMajorCoords 2 2)
    ∧ (drawTileLayer 4 cexTileset cexLayer).map
        (fun l => l.map (fun c => (c.posX, c.posY, c.source.x)))
      = some [(0, 0, 0), (0, 1, 1), (1, 0, 2), (1, 1, 3)]
    ∧ (drawCoords 4 cexTileset cexLayer (rowMajorCoords 2 2)).map
        (fun l => l.map (fun c => (c.posX, c.posY, c.source.x)))
      = some [(0, 0, 0), (1, 0, 2), (0, 1, 1), (1, 1, 3)] := by
  refine ⟨by decide, by decide, by decide⟩

/-- C4 (amended): the background renderer visits the cells of each tile
layer's grid in column-major order — all cells of one column, in row order,
before any cell of the next column — bounded by the layer's declared width
and height. -/
theorem c4_column_major_order (textureWidth : Nat) (ts : Tileset) (layer : TileLayer)
    (w h : Nat) (hw : layer.width = some w) (hh : layer.height = some h) :
    drawTileLayer textureWidth ts layer =
      drawCoords textureWidth ts layer (colMajorCoords w h) :=
  drawTileLayer_eq_coords textureWidth ts layer w h hw hh

theorem c4_column_major_order_witness :
    drawTileLayer 4 cexTileset cexLayer =
      drawCoords 4 cexTileset cexLayer (colMajorCoords 2 2) :=
  c4_column_major_order 4 cexTileset cexLayer 2 2 rfl rfl

/-- C5: for every cell of a tile layer: if the cell is populated, the
background renderer issues exactly one draw at pixel position
`(column * tile_width, row * tile_height)`, with horizontal and vertical
flip taken from the cell's stored flip flags and the source rectangle
resolved from the cell's tile id; if the cell is empty, it issues zero draw
calls for that coordinate. Stated by filtering the layer's draw-call list
for the cell's pixel position (cell positions are distinct for positive
tile sizes). -/
theorem c5_per_cell_draws (textureWidth : Nat) (ts : Tileset) (layer : TileLayer)
    (w h x y : Nat) (calls : List DrawCall)
    (hw : layer.width = some w) (hh : layer.height = some h)
    (hcalls : drawTileLayer textureWidth ts layer = some calls)
    (hx : x < w) (hy : y < h)
    (htw : 0 < ts.tileWidth) (hth : 0 < ts.tileHeight) :
    (∀ tile, layer.getTile x y = some tile →
      ∃ src, resolveSourceRect tile.id textureWidth ts = some src
        ∧ calls.filter
            (fun c => c.posX == x * ts.tileWidth && c.posY == y * ts.tileHeight)
          = [⟨x * ts.tileWidth, y * ts.tileHeight, tile.flipH, tile.flipV, src⟩])
    ∧ (layer.getTile x y = none →
      calls.filter
          (fun c => c.posX == x * ts.tileWidth && c.posY == y * ts.tileHeight)
        = []) := by
  have hcoords : drawCoords textureWidth ts layer (colMajorCoords w h) = some calls := by
    rw [← drawTileLayer_eq_coords textureWidth ts layer w h hw hh]
    exact hcalls
  have hflat : calls = (colMajorCoords w h).flatMap (cellCalls textureWidth ts layer) :=
    drawCoords_flatten textureWidth ts layer _ _ hcoords
  have hsome := drawCoords_cell_some textureWidth ts layer _ _ hcoords
  have hother : ∀ p ∈ colMajorCoords w h, p ≠ (x, y) →
      (cellCalls textureWidth ts layer p).filter
        (fun c => c.posX == x * ts.tileWidth && c.posY == y * ts.tileHeight) = [] := by
    intro p hp hne
    obtain ⟨d, hd⟩ := hsome p hp
    cases ht : layer.getTile p.1 p.2 with
    | none =>
      simp [cellCalls, drawCellAt_empty textureWidth ts layer p.1 p.2 ht]
    | some tile =>
      obtain ⟨src, hsrc, hmx, hmy, hdval⟩ :=
        drawCellAt_some_elim textureWidth ts layer p.1 p.2 tile d ht hd
      have hcc : cellCalls textureWidth ts layer p = d := by
        simp [cellCalls, hd]
      rw [hcc, hdval]
      have hneq : ¬(p.1 * ts.tileWidth = x * ts.tileWidth
          ∧ p.2 * ts.tileHeight = y * ts.tileHeight) := by
        rintro ⟨e1, e2⟩
        exact hne (Prod.ext_iff.mpr
          ⟨Nat.eq_of_mul_eq_mul_right htw e1, Nat.eq_of_mul_eq_mul_right hth e2⟩)
      have hpred : (fun c : DrawCall =>
          c.posX == x * ts.tileWidth && c.posY == y * ts.tileHeight)
          (⟨p.1 * ts.tileWidth, p.2 * ts.tileHeight, tile.flipH, tile.flipV, src⟩)
          = false := by
        rw [Bool.eq_false_iff]
        intro hb
        simp only [Bool.and_eq_true, beq_iff_eq] at hb
        exact hneq hb
      simp [List.filter_cons, hpred]
  have hmain : calls.filter
      (fun c => c.posX == x * ts.tileWidth && c.posY == y * ts.tileHeight) =
      (cellCalls textureWidth ts layer (x, y)).filter
        (fun c => c.posX == x * ts.tileWidth && c.posY == y * ts.tileHeight) := by
    rw [hflat, filter_flatMap]
    exact flatMap_single _ _ _ (colMajor_nodup w h) (mem_colMajor.mpr ⟨hx, hy⟩) hother
  constructor
  · intro tile ht
    obtain ⟨d, hd⟩ := hsome (x, y) (mem_colMajor.mpr ⟨hx, hy⟩)
    obtain ⟨src, hsrc, hmx, hmy, hdval⟩ :=
      drawCellAt_some_elim textureWidth ts layer x y tile d ht hd
    refine ⟨src, hsrc, ?_⟩
    have hcc : cellCalls textureWidth ts layer (x, y) = d := by
      simp [cellCalls, hd]
    rw [hmain, hcc, hdval]
    simp
  · intro ht
    rw [hmain]
    simp [cellCalls, drawCellAt_empty textureWidth ts layer x y ht]

theorem c5_per_cell_draws_witness :
    ((∀ tile, cexLayer.getTile 1 0 = some tile →
      ∃ src, resolveSourceRect tile.id 4 cexTileset = some src
        ∧ (List.filter
            (fun c : DrawCall => c.posX == 1 * cexTileset.tileWidth
              && c.posY == 0 * cexTileset.tileHeight)
            ([⟨0, 0, false, false, ⟨0, 0, 1, 1⟩⟩, ⟨0, 1, false, false, ⟨1, 0, 1, 1⟩⟩,
              ⟨1, 0, false, false, ⟨2, 0, 1, 1⟩⟩, ⟨1, 1, false, false, ⟨3, 0, 1, 1⟩⟩]
              : List DrawCall))
          = [⟨1 * cexTileset.tileWidth, 0 * cexTileset.tileHeight,
              tile.flipH, tile.flipV, src⟩])
    ∧ (cexLayer.getTile 1 0 = none →
      (List.filter
          (fun c : DrawCall => c.posX == 1 * cexTileset.tileWidth
            && c.posY == 0 * cexTileset.tileHeight)
          ([⟨0, 0, false, false, ⟨0, 0, 1, 1⟩⟩, ⟨0, 1, false, false, ⟨1, 0, 1, 1⟩⟩,
            ⟨1, 0, false, false, ⟨2, 0, 1, 1⟩⟩, ⟨1, 1, false, false, ⟨3, 0, 1, 1⟩⟩]
            : List DrawCall))
        = [])) :=
  c5_per_cell_draws 4 cexTileset cexLayer 2 2 1 0
    [⟨0, 0, false, false, ⟨0, 0, 1, 1⟩⟩, ⟨0, 1, false, false, ⟨1, 0, 1, 1⟩⟩,
     ⟨1, 0, false, false, ⟨2, 0, 1, 1⟩⟩, ⟨1, 1, false, false, ⟨3, 0, 1, 1⟩⟩]
    rfl rfl (by decide) (by decide) (by decide) (by decide) (by decide)

/-- C10: the map resource reader resolves exactly the two paths
`data/world.tmx` and `data/background_tiles.tsx` to their compiled-in byte
contents; for every other requested path, `read_from` returns a `NotFound`
error. -/
theorem c10_read_from (p : String)
    (h1 : p ≠ "data/world.tmx") (h2 : p ≠ "data/background_tiles.tsx") :
    readFrom "data/world.tmx" = .ok .worldTmxBytes
    ∧ readFrom "data/background_tiles.tsx" = .ok .backgroundTilesTsxBytes
    ∧ readFrom p = .error .notFound := by
  refine ⟨rfl, rfl, ?_⟩
  simp [readFrom, h1, h2]

theorem c10_read_from_witness :
    readFrom "data/world.tmx" = .ok .worldTmxBytes
    ∧ readFrom "data/background_tiles.tsx" = .ok .backgroundTilesTsxBytes
    ∧ readFrom "data/MasterSimple.png" = .error .notFound :=
  c10_read_from "data/MasterSimple.png" (by decide) (by decide)

theorem exceptBind_ok {ε α β : Type} (a : α) (f : α → Except ε β) :
    (Except.ok a >>= f) = f a := rfl

theorem exceptBind_error {ε α β : Type} (e : ε) (f : α → Except ε β) :
    ((Except.error e : Except ε α) >>= f) = Except.error e := rfl

theorem exceptBind_ok_iff {ε α β : Type} {x : Except ε α} {f : α → Except ε β} {b : β} :
    (x >>= f) = .ok b ↔ ∃ a, x = .ok a ∧ f a = .ok b := by
  cases x with
  | error e =>
    rw [exceptBind_error]
    constructor
    · intro hcontr; cases hcontr
    · rintro ⟨a, ha, -⟩; cases ha
  | ok a =>
    rw [exceptBind_ok]
    constructor
    · intro hfa; exact ⟨a, rfl, hfa⟩
    · rintro ⟨a2, ha2, hfa⟩
      cases ha2
      exact hfa

/-- The seven texture paths loaded during startup (main.rs:193,208-231). -/
def texturePaths : List String :=
  ["data/MasterSimple.png", "data/char1_idle.png", "data/char1_walk.png",
   "data/char2_idle.png", "data/char2_walk.png", "data/char3_idle.png",
   "data/char3_walk.png"]

theorem characterNew_ok_elim (loadTexture : String → Except LoadError Texture)
    (name job : String) (position : ℚ × ℚ) (ia wa : String) (c : Character)
    (h : characterNew loadTexture name job position ia wa = .ok c) :
    (∃ t, loadTexture ia = .ok t ∧ c.idleTexture = t)
    ∧ (∃ t, loadTexture wa = .ok t ∧ c.walkTexture = t)
    ∧ c.name = name ∧ c.job = job ∧ c.position = position
    ∧ c.idleSprite = mkAnimatedSprite 16 16 idleAnimations true
    ∧ c.walkSprite = mkAnimatedSprite 16 16 walkAnimations true := by
  unfold characterNew at h
  rw [exceptBind_ok_iff] at h
  obtain ⟨it, hit, h⟩ := h
  rw [exceptBind_ok_iff] at h
  obtain ⟨wt, hwt, h⟩ := h
  cases h
  exact ⟨⟨it, hit, rfl⟩, ⟨wt, hwt, rfl⟩, rfl, rfl, rfl, rfl, rfl⟩

theorem startup_ok_elim (mapR : Except LoadError TiledMap)
    (tilesetR : Except LoadError Tileset)
    (loadTexture : String → Except LoadError Texture) (s : GameState)
    (hs : startup mapR tilesetR loadTexture = .ok s) :
    mapR = .ok s.worldMap ∧ tilesetR = .ok s.backgroundTileset
    ∧ loadTexture "data/MasterSimple.png" = .ok s.backgroundTexture
    ∧ (∀ p ∈ texturePaths, ∃ t, loadTexture p = .ok t)
    ∧ s.characters.map (fun c => (c.name, c.job, c.position)) =
        [("Kas", "Shopkeeper", ((100 : ℚ), (100 : ℚ))),
         ("Jeid", "Barkeeper", (200, 200)),
         ("Bres", "Peasant", (400, 230))] := by
  unfold startup at hs
  rw [exceptBind_ok_iff] at hs
  obtain ⟨m, hm, hs⟩ := hs
  rw [exceptBind_ok_iff] at hs
  obtain ⟨tsv, htsv, hs⟩ := hs
  rw [exceptBind_ok_iff] at hs
  obtain ⟨bg, hbg, hs⟩ := hs
  rw [exceptBind_ok_iff] at hs
  obtain ⟨c1, hc1, hs⟩ := hs
  rw [exceptBind_ok_iff] at hs
  obtain ⟨c2, hc2, hs⟩ := hs
  rw [exceptBind_ok_iff] at hs
  obtain ⟨c3, hc3, hs⟩ := hs
  cases hs
  obtain ⟨⟨i1, hi1, -⟩, ⟨w1, hw1, -⟩, hn1, hj1, hp1, -, -⟩ :=
    characterNew_ok_elim _ _ _ _ _ _ _ hc1
  obtain ⟨⟨i2, hi2, -⟩, ⟨w2, hw2, -⟩, hn2, hj2, hp2, -, -⟩ :=
    characterNew_ok_elim _ _ _ _ _ _ _ hc2
  obtain ⟨⟨i3, hi3, -⟩, ⟨w3, hw3, -⟩, hn3, hj3, hp3, -, -⟩ :=
    characterNew_ok_elim _ _ _ _ _ _ _ hc3
  refine ⟨hm, htsv, hbg, ?_, ?_⟩
  · intro p hp
    simp only [texturePaths, List.mem_cons, List.not_mem_nil, or_false] at hp
    rcases hp with rfl | rfl | rfl | rfl | rfl | rfl | rfl
    · exact ⟨bg, hbg⟩
    · exact ⟨i1, hi1⟩
    · exact ⟨w1, hw1⟩
    · exact ⟨i2, hi2⟩
    · exact ⟨w2, hw2⟩
    · exact ⟨i3, hi3⟩
    · exact ⟨w3, hw3⟩
  · simp [hn1, hj1, hp1, hn2, hj2, hp2, hn3, hj3, hp3]

/-- Modelled from the spec: well-formedness of the compiled-in assets
(`data/world.tmx`, `data/background_tiles.tsx` and the sheet image), which
are data files of the repository, not code under `src/`. Spec §6 describes
the map as named tile layers (with declared grid dimensions) of tile
references; spec §3 requires `tile_width + spacing > 0` and
`tiles_per_row ≥ 1`; spec §8 requires every referenced tile id to lie in
`[0, tiles_per_row * rows)`. The size bounds say the geometry fits `u32`
pixel space. -/
structure WellFormedAssets (map : TiledMap) (ts : Tileset) (texW texH : Nat) : Prop where
  layersTile : ∀ l ∈ map.layers, ∃ tl w h, l.asTileLayer = some tl
    ∧ tl.width = some w ∧ tl.height = some h
    ∧ w * ts.tileWidth < u32Limit ∧ h * ts.tileHeight < u32Limit
  marginW : ts.margin ≤ texW
  marginH : ts.margin ≤ texH
  texWLt : texW < u32Limit
  texHLt : texH < u32Limit
  numLt : texW - ts.margin + ts.spacing < u32Limit
  denLt : ts.tileWidth + ts.spacing < u32Limit
  tprPos : 1 ≤ specTilesPerRow texW ts
  cellsInRange : ∀ l ∈ map.layers, ∀ tl, l.asTileLayer = some tl →
    ∀ x y tile, tl.getTile x y = some tile →
      tile.id < specTilesPerRow texW ts * specRows texH ts

theorem drawCellAt_isSome (texW texH : Nat) (ts : Tileset) (layer : TileLayer) (x y : Nat)
    (hmW : ts.margin ≤ texW) (hmH : ts.margin ≤ texH)
    (hW : texW < u32Limit) (hH : texH < u32Limit)
    (hnum : texW - ts.margin + ts.spacing < u32Limit)
    (hden : ts.tileWidth + ts.spacing < u32Limit)
    (htpr : 1 ≤ specTilesPerRow texW ts)
    (hcell : ∀ tile, layer.getTile x y = some tile →
      tile.id < specTilesPerRow texW ts * specRows texH ts)
    (hpx : x * ts.tileWidth < u32Limit) (hpy : y * ts.tileHeight < u32Limit) :
    ∃ d, drawCellAt texW ts layer x y = some d := by
  cases ht : layer.getTile x y with
  | none => exact ⟨[], drawCellAt_empty texW ts layer x y ht⟩
  | some tile =>
    obtain ⟨hres, -, -⟩ := resolve_bounds tile.id texW texH ts
      hmW hmH hW hH hnum hden htpr (hcell tile ht)
    exact ⟨[⟨x * ts.tileWidth, y * ts.tileHeight, tile.flipH, tile.flipV,
        specSourceRect tile.id texW ts⟩],
      by simp [drawCellAt, ht, hres, checkedMul, hpx, hpy]⟩

theorem drawInner_isSome (texW : Nat) (ts : Tileset) (layer : TileLayer) (x : Nat)
    (ys : List Nat)
    (hcells : ∀ y ∈ ys, ∃ d, drawCellAt texW ts layer x y = some d) :
    ∃ L, drawInner texW ts layer x ys = some L := by
  induction ys with
  | nil => exact ⟨[], rfl⟩
  | cons y ys ih =>
    obtain ⟨d, hd⟩ := hcells y (List.mem_cons_self _ _)
    obtain ⟨L, hL⟩ := ih (fun z hz => hcells z (List.mem_cons_of_mem _ hz))
    exact ⟨d ++ L, by simp [drawInner, hd, hL]⟩

theorem drawOuter_isSome (texW : Nat) (ts : Tileset) (layer : TileLayer) (h : Nat)
    (xs : List Nat)
    (hcols : ∀ x ∈ xs, ∃ L, drawInner texW ts layer x (List.range h) = some L) :
    ∃ B, drawOuter texW ts layer h xs = some B := by
  induction xs with
  | nil => exact ⟨[], rfl⟩
  | cons x xs ih =>
    obtain ⟨L, hL⟩ := hcols x (List.mem_cons_self _ _)
    obtain ⟨B, hB⟩ := ih (fun z hz => hcols z (List.mem_cons_of_mem _ hz))
    exact ⟨L ++ B, by simp [drawOuter, hL, hB]⟩

theorem drawBackground_isSome (texW : Nat) (ts : Tileset) (ls : List MapLayer)
    (h : ∀ l ∈ ls, ∃ L, drawMapLayer texW ts l = some L) :
    ∃ B, drawBackground texW ts ls = some B := by
  induction ls with
  | nil => exact ⟨[], rfl⟩
  | cons l ls ih =>
    obtain ⟨L, hL⟩ := h l (List.mem_cons_self _ _)
    obtain ⟨B, hB⟩ := ih (fun z hz => h z (List.mem_cons_of_mem _ hz))
    exact ⟨L ++ B, by simp [drawBackground, hL, hB]⟩

theorem wellformed_drawBackground (map : TiledMap) (ts : Tileset) (texW texH : Nat)
    (wf : WellFormedAssets map ts texW texH) :
    ∃ B, drawBackground texW ts map.layers = some B := by
  apply drawBackground_isSome
  intro l hl
  obtain ⟨tl, w, h, htl, hw, hh, hwlt, hhlt⟩ := wf.layersTile l hl
  have hcols : ∀ x ∈ List.range w, ∃ L, drawInner texW ts tl x (List.range h) = some L := by
    intro x hx
    apply drawInner_isSome
    intro y hy
    apply drawCellAt_isSome texW texH ts tl x y wf.marginW wf.marginH wf.texWLt
      wf.texHLt wf.numLt wf.denLt wf.tprPos
    · intro tile htile
      exact wf.cellsInRange l hl tl htl x y tile htile
    · exact lt_of_le_of_lt
        (Nat.mul_le_mul_right _ (le_of_lt (List.mem_range.mp hx))) hwlt
    · exact lt_of_le_of_lt
        (Nat.mul_le_mul_right _ (le_of_lt (List.mem_range.mp hy))) hhlt
  obtain ⟨B, hB⟩ := drawOuter_isSome texW ts tl h (List.range w) hcols
  exact ⟨B, by simp [drawMapLayer, htl, drawTileLayer, hw, hh, hB]⟩

theorem frameStep_isSome (s : GameState) (input : FrameInput) (texH : Nat)
    (wf : WellFormedAssets s.worldMap s.backgroundTileset s.backgroundTexture.width texH) :
    ∃ fr, frameStep s input = some fr
      ∧ fr.2.worldMap = s.worldMap
      ∧ fr.2.backgroundTileset = s.backgroundTileset
      ∧ fr.2.backgroundTexture = s.backgroundTexture := by
  obtain ⟨B, hB⟩ := wellformed_drawBackground s.worldMap s.backgroundTileset
    s.backgroundTexture.width texH wf
  refine ⟨(⟨B, (s.characters.map (characterDraw input.dt)).map Prod.fst,
      compositeViewport input.screenW input.screenH s.mapWidth s.mapHeight⟩,
    { s with characters := (s.characters.map (characterDraw input.dt)).map Prod.snd }),
    ?_, rfl, rfl, rfl⟩
  simp [frameStep, hB]

theorem renderLoop_total (inputs : List FrameInput) :
    ∀ (s : GameState) (texH : Nat),
    WellFormedAssets s.worldMap s.backgroundTileset s.backgroundTexture.width texH →
    ∃ frames, renderLoop s inputs = some frames ∧ frames.length = inputs.length := by
  induction inputs with
  | nil => intro s texH _; exact ⟨[], rfl, rfl⟩
  | cons input rest ih =>
    intro s texH wf
    obtain ⟨fr, hfr, hwm, hts, htx⟩ := frameStep_isSome s input texH wf
    have wf2 : WellFormedAssets fr.2.worldMap fr.2.backgroundTileset
        fr.2.backgroundTexture.width texH := by
      rw [hwm, hts, htx]; exact wf
    obtain ⟨frames, hframes, hlen⟩ := ih fr.2 texH wf2
    exact ⟨fr.1 :: frames, by simp [renderLoop, hfr, hframes], by simp [hlen]⟩

theorem drawBackground_none_of_mem (texW : Nat) (ts : Tileset) (ls : List MapLayer)
    (l : MapLayer) (hl : l ∈ ls) (hfail : drawMapLayer texW ts l = none) :
    drawBackground texW ts ls = none := by
  induction ls with
  | nil => cases hl
  | cons b t ih =>
    rcases List.mem_cons.mp hl with rfl | hmem
    · simp [drawBackground, hfail]
    · cases hb : drawMapLayer texW ts b with
      | none => simp [drawBackground, hb]
      | some L => simp [drawBackground, hb, ih hmem]

/-- A concrete well-formed 2×2 tile layer (every cell holds tile 0). -/
def okLayer : TileLayer := ⟨some 2, some 2, fun _ _ => some ⟨0, false, false⟩⟩

/-- A concrete well-formed map holding `okLayer`. -/
def okMap : TiledMap := ⟨2, 2, 16, 16, [⟨some okLayer⟩]⟩

/-- The 16×16, margin 0, spacing 0 geometry. -/
def okTileset : Tileset := ⟨16, 16, 0, 0⟩

/-- A texture loader that always succeeds with a 128-pixel-wide texture. -/
def okLoad : String → Except LoadError Texture := fun p => .ok ⟨p, 128⟩

/-- The game state `startup` produces from `okMap`, `okTileset`, `okLoad`. -/
def okState : GameState :=
  { worldMap := okMap
    backgroundTileset := okTileset
    backgroundTexture := ⟨"data/MasterSimple.png", 128⟩
    mapWidth := ((okMap.width * okMap.tileWidth : Nat) : ℚ)
    mapHeight := ((okMap.height * okMap.tileHeight : Nat) : ℚ)
    characters :=
      [⟨"Kas", "Shopkeeper", (100, 100), mkAnimatedSprite 16 16 idleAnimations true,
        ⟨"data/char1_idle.png", 128⟩, mkAnimatedSprite 16 16 walkAnimations true,
        ⟨"data/char1_walk.png", 128⟩⟩,
       ⟨"Jeid", "Barkeeper", (200, 200), mkAnimatedSprite 16 16 idleAnimations true,
        ⟨"data/char2_idle.png", 128⟩, mkAnimatedSprite 16 16 walkAnimations true,
        ⟨"data/char2_walk.png", 128⟩⟩,
       ⟨"Bres", "Peasant", (400, 230), mkAnimatedSprite 16 16 idleAnimations true,
        ⟨"data/char3_idle.png", 128⟩, mkAnimatedSprite 16 16 walkAnimations true,
        ⟨"data/char3_walk.png", 128⟩⟩] }

theorem okAssets_wellformed : WellFormedAssets okMap okTileset 128 128 := by
  refine ⟨?_, by decide, by decide, by decide, by decide, by decide, by decide,
    by decide, ?_⟩
  · intro l hl
    simp only [okMap, List.mem_singleton] at hl
    subst hl
    exact ⟨okLayer, 2, 2, rfl, rfl, rfl, by decide, by decide⟩
  · intro l hl tl htl x y tile htile
    simp only [okMap, List.mem_singleton] at hl
    subst hl
    cases htl
    cases htile
    decide

/-- A tile layer with no explicit height (as a tiled infinite-map layer
reports); its width is declared. -/
def badLayer : TileLayer := ⟨some 2, none, fun _ _ => some ⟨0, false, false⟩⟩

/-- A map holding the dimension-less `badLayer`. -/
def badMap : TiledMap := ⟨2, 2, 16, 16, [⟨some badLayer⟩]⟩

/-- The game state `startup` produces from `badMap`, `okTileset`, `okLoad`. -/
def badState : GameState :=
  { okState with
    worldMap := badMap
    mapWidth := ((badMap.width * badMap.tileWidth : Nat) : ℚ)
    mapHeight := ((badMap.height * badMap.tileHeight : Nat) : ℚ) }

/-- C7: each character's position, name, and job are set once at construction
from the fixed roster — Kas the Shopkeeper at (100, 100), Jeid the Barkeeper
at (200, 200), Bres the Peasant at (400, 230) — and are never mutated
afterwards: drawing a character leaves its position, name, job, and both
textures (and even its walk sprite) unchanged, only its idle animation state
is mutated, and this persists over every iteration of the render loop's
character pass. -/
theorem c7_character_immutable :
    (∀ (dt : ℚ) (c : Character),
      (characterDraw dt c).2.name = c.name
      ∧ (characterDraw dt c).2.job = c.job
      ∧ (characterDraw dt c).2.position = c.position
      ∧ (characterDraw dt c).2.idleTexture = c.idleTexture
      ∧ (characterDraw dt c).2.walkTexture = c.walkTexture
      ∧ (characterDraw dt c).2.walkSprite = c.walkSprite)
    ∧ (∀ (dts : List ℚ) (cs : List Character),
      (charactersLoop cs dts).map
          (fun c => (c.name, c.job, c.position, c.idleTexture, c.walkTexture))
        = cs.map (fun c => (c.name, c.job, c.position, c.idleTexture, c.walkTexture)))
    ∧ (∀ (mapR : Except LoadError TiledMap) (tilesetR : Except LoadError Tileset)
        (loadTexture : String → Except LoadError Texture) (s : GameState),
      startup mapR tilesetR loadTexture = .ok s →
      s.characters.map (fun c => (c.name, c.job, c.position)) =
        [("Kas", "Shopkeeper", ((100 : ℚ), (100 : ℚ))),
         ("Jeid", "Barkeeper", (200, 200)),
         ("Bres", "Peasant", (400, 230))]) := by
  refine ⟨fun dt c => ⟨rfl, rfl, rfl, rfl, rfl, rfl⟩, ?_, ?_⟩
  · intro dts
    induction dts with
    | nil => intro cs; rfl
    | cons dt rest ih =>
      intro cs
      rw [charactersLoop, ih]
      simp [charactersStep, List.map_map, Function.comp, characterDraw]
  · intro mapR tilesetR loadTexture s hs
    exact (startup_ok_elim mapR tilesetR loadTexture s hs).2.2.2.2

theorem c7_character_immutable_witness :
    ((charactersLoop okState.characters [1 / 5, 1 / 7]).map
        (fun c => (c.name, c.job, c.position, c.idleTexture, c.walkTexture))
      = okState.characters.map
        (fun c => (c.name, c.job, c.position, c.idleTexture, c.walkTexture)))
    ∧ okState.characters.map (fun c => (c.name, c.job, c.position)) =
        [("Kas", "Shopkeeper", ((100 : ℚ), (100 : ℚ))),
         ("Jeid", "Barkeeper", (200, 200)),
         ("Bres", "Peasant", (400, 230))] :=
  ⟨c7_character_immutable.2.1 [1 / 5, 1 / 7] okState.characters,
   c7_character_immutable.2.2 (.ok okMap) (.ok okTileset) okLoad okState rfl⟩

theorem exceptMap_error {ε α β : Type} (f : α → β) (e : ε) :
    Except.map f (Except.error e : Except ε α) = Except.error e := rfl

theorem exceptMap_ok {ε α β : Type} (f : α → β) (a : α) :
    (Except.map f (Except.ok a) : Except ε β) = Except.ok (f a) := rfl

/-- C8: if loading the map, a tileset, or any texture fails at startup, the
program terminates immediately and unconditionally before the render loop
begins (the run is an error and produces no frame); and — with the
compiled-in assets well-formed as the spec describes them — once the loop is
running there is no runtime error path: every frame of the render loop
succeeds. -/
theorem c8_startup_failure_and_total_loop :
    (∀ (mapR : Except LoadError TiledMap) (tilesetR : Except LoadError Tileset)
        (loadTexture : String → Except LoadError Texture) (inputs : List FrameInput),
      (mapR.isOk = false ∨ tilesetR.isOk = false
        ∨ ∃ p ∈ texturePaths, (loadTexture p).isOk = false) →
      ∃ e, runProgram mapR tilesetR loadTexture inputs = .error e)
    ∧ (∀ (mapR : Except LoadError TiledMap) (tilesetR : Except LoadError Tileset)
        (loadTexture : String → Except LoadError Texture) (s : GameState)
        (texH : Nat) (inputs : List FrameInput),
      startup mapR tilesetR loadTexture = .ok s →
      WellFormedAssets s.worldMap s.backgroundTileset s.backgroundTexture.width texH →
      ∃ frames, runProgram mapR tilesetR loadTexture inputs = .ok (some frames)
        ∧ frames.length = inputs.length) := by
  constructor
  · intro mapR tilesetR loadTexture inputs hfail
    cases hstart : startup mapR tilesetR loadTexture with
    | error e => exact ⟨e, by simp [runProgram, hstart, exceptMap_error]⟩
    | ok s =>
      exfalso
      obtain ⟨hm, hts, hbg, hall, -⟩ :=
        startup_ok_elim mapR tilesetR loadTexture s hstart
      rcases hfail with hf | hf | ⟨p, hp, hf⟩
      · rw [hm] at hf; cases hf
      · rw [hts] at hf; cases hf
      · obtain ⟨t, htt⟩ := hall p hp
        rw [htt] at hf; cases hf
  · intro mapR tilesetR loadTexture s texH inputs hs wf
    obtain ⟨frames, hframes, hlen⟩ := renderLoop_total inputs s texH wf
    exact ⟨frames, by simp [runProgram, hs, exceptMap_ok, hframes], hlen⟩

theorem c8_startup_failure_and_total_loop_witness :
    (∃ e, runProgram (.error .fileNotFound) (.ok okTileset) okLoad [] = .error e)
    ∧ (∃ frames, runProgram (.ok okMap) (.ok okTileset) okLoad
        [⟨1 / 60, 1600, 600⟩] = .ok (some frames) ∧ frames.length = 1) :=
  ⟨c8_startup_failure_and_total_loop.1 (.error .fileNotFound) (.ok okTileset)
      okLoad [] (Or.inl rfl),
   c8_startup_failure_and_total_loop.2 (.ok okMap) (.ok okTileset) okLoad okState
      128 [⟨1 / 60, 1600, 600⟩] rfl okAssets_wellformed⟩

/-- C9 counterexample: a tile layer lacking an explicit height is not
rejected at load time — `startup` succeeds on `badMap` — and it is not
silently skipped: the very first iteration of the render loop panics
(`frameStep` is `none`), so the run ends as `.ok none`: startup succeeded
and the per-frame draw failed. -/
theorem c9_load_time_counterexample :
    startup (.ok badMap) (.ok okTileset) okLoad = .ok badState
    ∧ frameStep badState ⟨1 / 60, 800, 600⟩ = none
    ∧ runProgram (.ok badMap) (.ok okTileset) okLoad [⟨1 / 60, 800, 600⟩]
        = .ok none :=
  ⟨rfl, rfl, rfl⟩

/-- C9 (amended): a tile layer lacking explicit width or height dimensions
is not rejected at load time — startup never inspects layer dimensions — and
is not silently skipped: the per-frame draw fails (panics at the `unwrap` of
`layer.width()` / `layer.height()`) on every frame that reaches the layer. -/
theorem c9_missing_dims_fail_at_draw (tilesetR : Except LoadError Tileset)
    (loadTexture : String → Except LoadError Texture) (m : TiledMap) (s : GameState)
    (input : FrameInput) (l : MapLayer) (tl : TileLayer)
    (hs : startup (.ok m) tilesetR loadTexture = .ok s)
    (hl : l ∈ m.layers) (htl : l.asTileLayer = some tl)
    (hdim : tl.width = none ∨ tl.height = none) :
    frameStep s input = none := by
  have hwm : s.worldMap = m := by
    obtain ⟨hm, -, -, -, -⟩ := startup_ok_elim (.ok m) tilesetR loadTexture s hs
    exact (Except.ok.inj hm).symm
  have htile : drawTileLayer s.backgroundTexture.width s.backgroundTileset tl = none := by
    rcases hdim with hnone | hnone
    · simp [drawTileLayer, hnone]
    · cases hw : tl.width with
      | none => simp [drawTileLayer, hw]
      | some w => simp [drawTileLayer, hw, hnone]
  have hfail : drawMapLayer s.backgroundTexture.width s.backgroundTileset l = none := by
    simp [drawMapLayer, htl, htile]
  have hbg : drawBackground s.backgroundTexture.width s.backgroundTileset
      s.worldMap.layers = none := by
    rw [hwm]
    exact drawBackground_none_of_mem _ _ _ l hl hfail
  simp [frameStep, hbg]

theorem c9_missing_dims_fail_at_draw_witness :
    frameStep badState ⟨1 / 60, 800, 600⟩ = none :=
  c9_missing_dims_fail_at_draw (.ok okTileset) okLoad badMap badState
    ⟨1 / 60, 800, 600⟩ ⟨some badLayer⟩ badLayer rfl
    (List.mem_singleton.mpr rfl) rfl (Or.inr rfl)

end LlmPlayground
